import Mathlib

/-!
Shallow embedding of the audio generation engine of the `fart-generator`
repository, as implemented by the `AudioGenerationEngine` class in
`src/docs/RFC-002-Audio-Generation-Engine.md` (section 4.4).  Audio samples
are modelled as exact rationals.  The external numeric libraries the code
calls (numpy, scipy, librosa) are modelled as a parameter pack whose fields
carry the documented behaviour of those library functions that the proofs
rely on; randomness (`np.random`, `random`) is modelled as an explicit
stream of rational draws determined by the seed.
-/

namespace FartGen

/-- The five preset categories of the `type` parameter
(`"squeaker" | "rumbler" | "stutterer" | "classic" | "wet"`). -/
inductive FartType
  | squeaker | rumbler | stutterer | classic | wet
deriving DecidableEq, Repr, Inhabited

/-- Errors the embedded pipeline can signal.  `valueError` models the
`ValueError` exceptions Python raises (empty `randint` range, numpy shape
mismatches, empty convolution kernels).  `missingAssetError` is the dedicated
error named by the spec's taxonomy (section 7); it is included so that
statements can compare the error the code actually produces against it —
no code path of the source constructs it. -/
inductive EngErr
  | valueError | missingAssetError
deriving DecidableEq, Repr, Inhabited

/-- A stream of raw random draws.  Models the state of the seeded PRNGs:
position `n` holds the `n`-th raw draw consumed by the render. -/
abbrev RandStream := ℕ → ℚ

/-- Clamp a rational into `[0, 1]`; used to interpret a raw draw as a
uniform variate. -/
def clamp01 (q : ℚ) : ℚ := max 0 (min 1 q)

/-- Model of Python's `random.randint(a, b)` (both endpoints inclusive).
Raises `ValueError` when the range is empty (`b < a`), exactly as Python
does; otherwise the draw is some value of `[a, b]` determined by the
stream. -/
def randintD (s : RandStream) (pos : ℕ) (a b : ℤ) : Except EngErr (ℤ × ℕ) :=
  if b < a then .error .valueError
  else .ok (a + (((Int.floor (s pos)).natAbs % (b - a + 1).toNat : ℕ) : ℤ), pos + 1)

/-- Model of `random.uniform(a, b)` / `np.random.uniform(a, b)`: a value of
`[a, b]` determined by the stream. -/
def uniformD (s : RandStream) (pos : ℕ) (a b : ℚ) : ℚ × ℕ :=
  (a + (b - a) * clamp01 (s pos), pos + 1)

/-- Model of `np.random.normal(0, sigma, n)`: `n` unbounded draws scaled by
the standard deviation. -/
def normalsD (s : RandStream) (pos : ℕ) (sigma : ℚ) (n : ℕ) : List ℚ × ℕ :=
  ((List.range n).map fun i => sigma * s (pos + i), pos + n)

/-- Model of `np.linspace(a, b, n)` (endpoint included; `n = 1` yields
`[a]`, matching numpy). -/
def linspaceQ (a b : ℚ) (n : ℕ) : List ℚ :=
  if n ≤ 1 then List.replicate n a
  else (List.range n).map fun (i : ℕ) => a + (b - a) * (i : ℚ) / ((n : ℚ) - 1)

/-- Absolute peak of a buffer: `np.abs(audio).max()`, with the convention
that an empty buffer has peak `0`. -/
def peakAbs (xs : List ℚ) : ℚ := xs.foldr (fun x m => max |x| m) 0

/-- The behaviour of the external transform library calls made by
`_apply_transformations`, over an arbitrary sample type `α`.  The proof
fields record the documented behaviour relied on by theorems:
`librosa.effects.time_stretch(y, rate)` changes speed by `rate`, so its
output length is `len(y) / rate` up to rounding; `librosa.effects.pitch_shift`
and `scipy.signal.sosfilt` (the Butterworth low-pass) preserve length. -/
structure TransformPack (α : Type) where
  timeStretch : List α → ℚ → List α
  pitchShift : List α → ℕ → ℤ → List α
  lowpass : List α → ℚ → ℕ → List α
  stretch_len : ∀ xs r, 0 < r →
    |(((timeStretch xs r).length : ℚ)) - (xs.length : ℚ) / r| ≤ 1
  shift_len : ∀ xs sr st, (pitchShift xs sr st).length = xs.length
  lowpass_len : ∀ xs c sr, (lowpass xs c sr).length = xs.length

/-- The external mathematical functions used by the generators and the
post-processor (`np.sin`, `np.exp`, `np.sqrt`, `2 ** x`, `np.tanh`, `np.pi`,
`np.fft.fft` / `np.fft.ifft(...).real`), modelled over exact rationals.  The
proof fields carry the facts the theorems use: the sine is bounded by `1`,
the hyperbolic tangent is strictly inside `(-1, 1)`, and the FFT and inverse
FFT preserve length. -/
structure MathPack where
  sinFn : ℚ → ℚ
  expFn : ℚ → ℚ
  sqrtFn : ℚ → ℚ
  pow2Fn : ℚ → ℚ
  tanhFn : ℚ → ℚ
  piQ : ℚ
  fftFn : List ℚ → List (ℚ × ℚ)
  ifftReFn : List (ℚ × ℚ) → List ℚ
  sin_le : ∀ x, |sinFn x| ≤ 1
  tanh_lt : ∀ x, |tanhFn x| < 1
  fft_len : ∀ xs, (fftFn xs).length = xs.length
  ifft_len : ∀ xs, (ifftReFn xs).length = xs.length

/-- The two packs together: everything external to the repository's own
code that `AudioGenerationEngine` calls. -/
structure Pack where
  tp : TransformPack ℚ
  mp : MathPack

/-- The `AudioParameters` pydantic model (RFC-002 section 4.2).  Field
`ftype` is the `type` field (renamed: `type` is a Lean keyword), `seed` is
`randomness_seed`. -/
structure AudioParameters where
  duration : ℚ
  wetness : ℕ
  pitch : ℕ
  ftype : FartType
  reverbAmount : ℚ
  distortion : ℚ
  seed : ℤ
  sampleRate : ℕ
deriving DecidableEq, Repr, Inhabited

/-- The validation ranges enforced by the pydantic `Field` constraints:
`duration ∈ [0.5, 10]`, `wetness, pitch ∈ [0, 10]`,
`reverb_amount, distortion ∈ [0, 1]`, positive `sample_rate`. -/
def AudioParameters.Valid (p : AudioParameters) : Prop :=
  1/2 ≤ p.duration ∧ p.duration ≤ 10 ∧ p.wetness ≤ 10 ∧ p.pitch ≤ 10 ∧
    0 ≤ p.reverbAmount ∧ p.reverbAmount ≤ 1 ∧
    0 ≤ p.distortion ∧ p.distortion ≤ 1 ∧ 1 ≤ p.sampleRate

instance (p : AudioParameters) : Decidable p.Valid := by
  unfold AudioParameters.Valid; infer_instance

/-- `int(params.duration * sr)`: the layer length in samples
(`duration_samples` in `_generate_synthesis_layers`).  Python `int()`
truncates toward zero; the product is nonnegative for valid parameters, so
this is the floor. -/
def durationSamples (p : AudioParameters) : ℕ :=
  (Int.floor (p.duration * p.sampleRate)).toNat

/-- A cached sample: the `(audio, sr)` pair stored by `_load_samples`. -/
abbrev Asset := List ℚ × ℕ

/-- The sample cache `self.sample_cache`: the assets registered under each
preset category.  The underlying `.wav` files are external inputs, so the
cache contents are a parameter of the model. -/
abbrev Cache := FartType → List Asset

/-- The noise colours dispatched on by `_generate_synthesis_layers`
(the code uses the string literals `"white"` and `"pink"`). -/
inductive NoiseType
  | white | pink
deriving DecidableEq, Repr, Inhabited

/-- The `"white"` branch of `_generate_noise`:
`np.random.normal(0, 0.1, length)`. -/
def whiteNoise (s : RandStream) (pos n : ℕ) : List ℚ × ℕ :=
  normalsD s pos (1/10) n

/-- Model of `np.fft.fftfreq(n, 1/sr)`: frequencies
`[0, 1, ..., (n-1)/2, -(n/2), ..., -1] * sr / n`. -/
def fftfreqQ (n sr : ℕ) : List ℚ :=
  (List.range n).map fun i =>
    (if i ≤ (n - 1) / 2 then (i : ℚ) else (i : ℚ) - n) * sr / n

/-- The `"pink"` branch of `_generate_noise`: white `N(0,1)` noise whose
spectrum is divided by `sqrt(|f| + 1)` and inverse-transformed, the real
part scaled by `0.1`. -/
def pinkNoise (mp : MathPack) (s : RandStream) (pos n sr : ℕ) : List ℚ × ℕ :=
  let w := normalsD s pos 1 n
  let ft := mp.fftFn w.1
  let weights := (fftfreqQ n sr).map fun f => mp.sqrtFn (|f| + 1)
  let shaped := (ft.zip weights).map fun z => (z.1.1 / z.2, z.1.2 / z.2)
  ((mp.ifftReFn shaped).map fun x => x * (1/10), w.2)

/-- `_generate_noise(length, sr, noise_type)`. -/
def generateNoise (mp : MathPack) (s : RandStream) (pos n sr : ℕ)
    (nt : NoiseType) : List ℚ × ℕ :=
  match nt with
  | .white => whiteNoise s pos n
  | .pink => pinkNoise mp s pos n sr

/-- `_pitch_to_freq(pitch) = 40 * 2 ** (pitch / 5)`. -/
def pitchToFreq (mp : MathPack) (pitch : ℕ) : ℚ :=
  40 * mp.pow2Fn ((pitch : ℚ) / 5)

/-- `_generate_rumble(length, sr, base_freq)`: three detuned sinusoids with
random phases, summed with weight `1/3`, amplitude-modulated by a slow
sinusoid of random rate in `[5, 15]` Hz, scaled by `0.3`.  The loop that
accumulates `rumble += sin(...) / 3` over `i = 0, 1, 2` is written as the
pointwise three-term sum. -/
def generateRumble (mp : MathPack) (s : RandStream) (pos n sr : ℕ)
    (baseFreq : ℚ) : List ℚ × ℕ :=
  let t := linspaceQ 0 ((n : ℚ) / sr) n
  let u0 := uniformD s pos 0 (2 * mp.piQ)
  let u1 := uniformD s u0.2 0 (2 * mp.piQ)
  let u2 := uniformD s u1.2 0 (2 * mp.piQ)
  let um := uniformD s u2.2 5 15
  let phases := [u0.1, u1.1, u2.1]
  let out := t.map fun tv =>
    (((List.range 3).map fun (i : ℕ) =>
        mp.sinFn (2 * mp.piQ * (baseFreq * (19/20 + (i : ℚ) * (1/20))) * tv
          + phases.getD i 0) / 3).sum)
      * (1/2 + (1/2) * mp.sinFn (2 * mp.piQ * um.1 * tv)) * (3/10)
  (out, um.2)

/-- One bubble of `_generate_bubbling`: its random position, length in
samples, and carrier frequency. -/
structure Burst where
  bpos : ℕ
  blen : ℕ
  bfreq : ℚ
deriving DecidableEq, Repr, Inhabited

/-- The three random draws of one iteration of the `_generate_bubbling`
loop: `pos = random.randint(0, length - 1000)` (a Python `int` subtraction,
so the upper bound may be negative, in which case `randint` raises),
`bubble_length = random.randint(100, 500)`,
`freq = random.uniform(300, 1000)`. -/
def drawBurst (s : RandStream) (pos len : ℕ) : Except EngErr (Burst × ℕ) :=
  match randintD s pos 0 ((len : ℤ) - 1000) with
  | .error e => .error e
  | .ok pr =>
    match randintD s pr.2 100 500 with
    | .error e => .error e
    | .ok lr =>
      let fr := uniformD s lr.2 300 1000
      .ok (⟨pr.1.toNat, lr.1.toNat, fr.1⟩, fr.2)

/-- The draws of all `num_bubbles` loop iterations, in loop order. -/
def drawBursts (s : RandStream) (len : ℕ) : ℕ → ℕ → Except EngErr (List Burst × ℕ)
  | 0, pos => .ok ([], pos)
  | n + 1, pos =>
    match drawBurst s pos len with
    | .error e => .error e
    | .ok br =>
      match drawBursts s len n br.2 with
      | .error e => .error e
      | .ok rest => .ok (br.1 :: rest.1, rest.2)

/-- The waveform of one bubble before placement:
`sin(2 pi freq t) * exp(-t * 50)` on `t = linspace(0, bubble_length/sr,
bubble_length)`. -/
def bubbleWave (mp : MathPack) (sr : ℕ) (b : Burst) : List ℚ :=
  (linspaceQ 0 ((b.blen : ℚ) / sr) b.blen).map fun tv =>
    mp.sinFn (2 * mp.piQ * b.bfreq * tv) * mp.expFn (-(tv * 50))

/-- Elementwise in-place addition `audio[off : off + len(xs)] += xs`,
leaving the buffer length unchanged. -/
def addInto (base : List ℚ) (off : ℕ) (xs : List ℚ) : List ℚ :=
  (List.range base.length).map fun i =>
    base.getD i 0 + if off ≤ i ∧ i - off < xs.length then xs.getD (i - off) 0 else 0

/-- The accumulation part of the `_generate_bubbling` loop: starting from
`np.zeros(length)`, each bubble is truncated to
`end_pos = min(pos + bubble_length, length)`, scaled by `0.1`, and added at
its position. -/
def renderBursts (mp : MathPack) (len sr : ℕ) (ds : List Burst) : List ℚ :=
  ds.foldl (fun acc b =>
    addInto acc b.bpos
      (((bubbleWave mp sr b).take (min (b.bpos + b.blen) len - b.bpos)).map
        fun x => x * (1/10)))
    (List.replicate len 0)

/-- `_generate_bubbling(length, sr, wetness)`: `int(wetness * 5)` bubbles
drawn and accumulated.  Drawing and accumulation are interleaved in the
Python loop; since accumulation consumes no draws, performing all draws
first is stream-for-stream identical. -/
def generateBubbling (mp : MathPack) (s : RandStream) (pos len sr w : ℕ) :
    Except EngErr (List ℚ × ℕ) :=
  match drawBursts s len (w * 5) pos with
  | .error e => .error e
  | .ok dr => .ok (renderBursts mp len sr dr.1, dr.2)

/-- The per-render layer dictionary: keys `"noise"` and `"rumble"` are
always present, `"bubbling"` only for wet renders. -/
structure Layers where
  noise : List ℚ
  rumble : List ℚ
  bubbling : Option (List ℚ)
deriving DecidableEq, Repr, Inhabited

/-- `_generate_synthesis_layers(params)`: noise (pink when `wetness > 5`,
else white), rumble at `_pitch_to_freq(pitch)`, and — only when
`wetness > 5` — the bubbling layer. -/
def generateSynthesisLayers (mp : MathPack) (p : AudioParameters)
    (s : RandStream) (pos : ℕ) : Except EngErr (Layers × ℕ) :=
  let n := durationSamples p
  let nr := generateNoise mp s pos n p.sampleRate
    (if 5 < p.wetness then .pink else .white)
  let rr := generateRumble mp s nr.2 n p.sampleRate (pitchToFreq mp p.pitch)
  if 5 < p.wetness then
    match generateBubbling mp s rr.2 n p.sampleRate p.wetness with
    | .error e => .error e
    | .ok br => .ok (⟨nr.1, rr.1, some br.1⟩, br.2)
  else .ok (⟨nr.1, rr.1, none⟩, rr.2)

/-- `_apply_transformations(audio, params)`: time-stretch with
`rate = stretch_factor = params.duration / current_duration` where
`current_duration = len(audio) / params.sample_rate`; pitch-shift by
`(pitch - 5) * 2` semitones; and, when `wetness > 5`, the 4th-order
Butterworth low-pass at `800 + (10 - wetness) * 200` Hz.  Generic in the
sample type: the stage itself only routes buffers through the library
calls and computes the rate, cutoff and semitone arguments. -/
def applyTransformations {α : Type} (tp : TransformPack α) (audio : List α)
    (p : AudioParameters) : List α :=
  let current : ℚ := (audio.length : ℚ) / p.sampleRate
  let rate : ℚ := p.duration / current
  let a1 := tp.timeStretch audio rate
  let a2 := tp.pitchShift a1 p.sampleRate (((p.pitch : ℤ) - 5) * 2)
  if 5 < p.wetness then
    tp.lowpass a2 (800 + ((10 : ℚ) - p.wetness) * 200) p.sampleRate
  else a2

/-- `_resize_audio(audio, target_length)`: unchanged if already the target
length, zero-padded at the tail if shorter, truncated if longer. -/
def resizeAudio (audio : List ℚ) (target : ℕ) : List ℚ :=
  if audio.length = target then audio
  else if audio.length < target then
    audio ++ List.replicate (target - audio.length) 0
  else audio.take target

/-- `_mix_layers(base, layers, params)`: every layer is resized to
`len(base)`, then `mixed = base*0.6 + noise*0.15 + rumble*0.20`, and if a
bubbling layer exists `mixed += bubbling*0.15; mixed *= 0.8`.  The unused
`params` argument of the source is dropped. -/
def mixLayers (base : List ℚ) (layers : Layers) : List ℚ :=
  let n := base.length
  let noise := resizeAudio layers.noise n
  let rumble := resizeAudio layers.rumble n
  let mixed := (List.range n).map fun i =>
    base.getD i 0 * (6/10) + noise.getD i 0 * (15/100) + rumble.getD i 0 * (2/10)
  match layers.bubbling with
  | none => mixed
  | some bubAudio =>
    let bub := resizeAudio bubAudio n
    (List.range n).map fun i => (mixed.getD i 0 + bub.getD i 0 * (15/100)) * (8/10)

/-- `_normalize(audio, target_peak)`: scale so the absolute peak equals the
target; no-op when the peak is zero. -/
def normalize (audio : List ℚ) (targetPeak : ℚ) : List ℚ :=
  let peak := peakAbs audio
  if 0 < peak then audio.map fun x => x * (targetPeak / peak) else audio

/-- The soft limiter line of `_post_process`:
`audio = np.tanh(audio * 1.2) * 0.9`, applied sample-wise. -/
def softLimiter (mp : MathPack) (audio : List ℚ) : List ℚ :=
  audio.map fun x => mp.tanhFn (x * (6/5)) * (9/10)

/-- `_apply_fade(audio, fade_samples)`:
`audio[:fade_samples] *= linspace(0, 1, fade_samples)` then
`audio[-fade_samples:] *= linspace(1, 0, fade_samples)`.  numpy raises a
broadcast `ValueError` when the slice and the ramp have different lengths,
which happens exactly when `fade_samples > len(audio)`, or when
`fade_samples = 0` and the buffer is nonempty (`audio[-0:]` is the whole
buffer while the ramp is empty); those cases yield `none`. -/
def applyFade (audio : List ℚ) (fadeSamples : ℕ) : Option (List ℚ) :=
  if fadeSamples = 0 then
    if audio.length = 0 then some audio else none
  else if fadeSamples ≤ audio.length then
    let fadeIn := linspaceQ 0 1 fadeSamples
    let b := ((audio.take fadeSamples).zip fadeIn).map (fun z => z.1 * z.2)
      ++ audio.drop fadeSamples
    let fadeOut := linspaceQ 1 0 fadeSamples
    some (b.take (b.length - fadeSamples)
      ++ ((b.drop (b.length - fadeSamples)).zip fadeOut).map fun z => z.1 * z.2)
  else none

/-- Model of `scipy.signal.convolve(a, k, mode='same')`: the centred part
of the full convolution, with the same length as `a`. -/
def convolveSame (a k : List ℚ) : List ℚ :=
  let off := (k.length - 1) / 2
  (List.range a.length).map fun i =>
    ((List.range a.length).map fun j =>
      if j ≤ i + off ∧ i + off - j < k.length then
        a.getD j 0 * k.getD (i + off - j) 0
      else 0).sum

/-- `_apply_reverb(audio, amount, sr)`: a 500 ms impulse response of
`N(0,1)` noise times the decay `exp(-n / (sr * 0.2))`, convolved (`same`
mode) and scaled by `amount`, then mixed as
`audio * (1 - amount) + reverb * amount`.  numpy raises a `ValueError` if
the impulse response is empty (`int(0.5 * sr) = 0`). -/
def applyReverb (mp : MathPack) (s : RandStream) (pos : ℕ) (audio : List ℚ)
    (amount : ℚ) (sr : ℕ) : Except EngErr (List ℚ × ℕ) :=
  let irLen := (Int.floor ((1/2 : ℚ) * sr)).toNat
  let dr := normalsD s pos 1 irLen
  let ir := (dr.1.zip (List.range irLen)).map fun z =>
    z.1 * mp.expFn (-((z.2 : ℚ) / ((sr : ℚ) * (1/5))))
  if irLen = 0 then .error .valueError
  else
    let rev := (convolveSame audio ir).map fun x => x * amount
    .ok ((audio.zip rev).map (fun z => z.1 * (1 - amount) + z.2 * amount), dr.2)

/-- `_post_process(audio, params)`: normalize to peak `0.95`, soft-limit,
fade over `int(0.05 * sr)` samples, and convolve with the synthetic reverb
when `reverb_amount > 0`. -/
def postProcess (mp : MathPack) (p : AudioParameters) (s : RandStream)
    (pos : ℕ) (audio : List ℚ) : Except EngErr (List ℚ × ℕ) :=
  let a1 := normalize audio (19/20)
  let a2 := softLimiter mp a1
  let fadeSamples := (Int.floor ((1/20 : ℚ) * p.sampleRate)).toNat
  match applyFade a2 fadeSamples with
  | none => .error .valueError
  | some a3 =>
    if 0 < p.reverbAmount then applyReverb mp s pos a3 p.reverbAmount p.sampleRate
    else .ok (a3, pos)

/-- Model of `random.sample(l, k)`: `k` distinct positions of `l`, drawn
one at a time, each chosen element removed before the next draw.  Python
raises `ValueError` when `k` exceeds the population size. -/
def sampleWithoutReplacement (s : RandStream) :
    ℕ → List Asset → ℕ → Except EngErr (List Asset × ℕ)
  | pos, _, 0 => .ok ([], pos)
  | pos, l, k + 1 =>
    if l.length = 0 then .error .valueError
    else
      match randintD s pos 0 ((l.length : ℤ) - 1) with
      | .error e => .error e
      | .ok ir =>
        match sampleWithoutReplacement s ir.2 (l.eraseIdx ir.1.toNat) k with
        | .error e => .error e
        | .ok rest => .ok (l.getD ir.1.toNat default :: rest.1, rest.2)

/-- The selection part of `_select_and_load_samples`:
`num_samples = random.randint(1, min(3, len(samples)))` followed by
`random.sample(samples, num_samples)`. -/
def selectSamples (cache : Cache) (t : FartType) (s : RandStream) (pos : ℕ) :
    Except EngErr (List Asset × ℕ) :=
  let samples := cache t
  match randintD s pos 1 ((min 3 samples.length : ℕ) : ℤ) with
  | .error e => .error e
  | .ok nr => sampleWithoutReplacement s nr.2 samples nr.1.toNat

/-- Modelled from the spec: `_overlap_samples` is called by
`_select_and_load_samples` but its body does not appear in the source.
Spec section 4.3 step 1: align all selected samples to start at time 0,
sum them, and normalize the amplitude by `1/count`. -/
def overlapSamples (assets : List Asset) : List ℚ :=
  let n := (assets.map fun a => a.1.length).foldr max 0
  (List.range n).map fun i =>
    ((assets.map fun a => a.1.getD i 0).sum) / assets.length

/-- `_select_and_load_samples(fart_type)`: a single selected sample is
returned as-is (its own sample rate is discarded by the caller), several
are overlapped. -/
def selectAndLoadSamples (cache : Cache) (t : FartType) (s : RandStream)
    (pos : ℕ) : Except EngErr (List ℚ × ℕ) :=
  match selectSamples cache t s pos with
  | .error e => .error e
  | .ok sr =>
    match sr.1 with
    | [a] => .ok (a.1, sr.2)
    | sel => .ok (overlapSamples sel, sr.2)

/-- `AudioGenerationEngine.generate(params)`.  Its first statements
`np.random.seed(params.randomness_seed); random.seed(params.randomness_seed)`
replace whatever global generator state `g` existed before the call by the
stream determined by the seed (`seedStream params.seed`); all later draws
come from that stream.  Returns the final audio paired with
`params.sample_rate`. -/
def generate (pack : Pack) (cache : Cache) (seedStream : ℤ → RandStream)
    (_g : RandStream × ℕ) (p : AudioParameters) :
    Except EngErr (List ℚ × ℕ) :=
  let s := seedStream p.seed
  match selectAndLoadSamples cache p.ftype s 0 with
  | .error e => .error e
  | .ok br =>
    match generateSynthesisLayers pack.mp p s br.2 with
    | .error e => .error e
    | .ok lr =>
      let baseT := applyTransformations pack.tp br.1 p
      let mixed := mixLayers baseT lr.1
      match postProcess pack.mp p s lr.2 mixed with
      | .error e => .error e
      | .ok fr => .ok (fr.1, p.sampleRate)

deriving instance DecidableEq for Except

theorem resizeAudio_length (a : List ℚ) (n : ℕ) : (resizeAudio a n).length = n := by
  unfold resizeAudio
  split
  · assumption
  · split
    · simp only [List.length_append, List.length_replicate]; omega
    · simp only [List.length_take]; omega

theorem floor_toNat_div_close (m : ℕ) (r : ℚ) (hr : 0 < r) :
    |(((Int.floor ((m : ℚ) / r)).toNat : ℚ)) - (m : ℚ) / r| ≤ 1 := by
  have hq : (0 : ℚ) ≤ (m : ℚ) / r := by positivity
  have hn : ((Int.floor ((m : ℚ) / r)).toNat : ℤ) = Int.floor ((m : ℚ) / r) :=
    Int.toNat_of_nonneg (Int.floor_nonneg.mpr hq)
  have hc : (((Int.floor ((m : ℚ) / r)).toNat : ℕ) : ℚ) = ((Int.floor ((m : ℚ) / r) : ℤ) : ℚ) := by
    exact_mod_cast congrArg (Int.cast : ℤ → ℚ) hn
  rw [hc]
  have h2 := Int.floor_le ((m : ℚ) / r)
  have h3 := Int.lt_floor_add_one ((m : ℚ) / r)
  rw [abs_le]
  constructor <;> linarith

/-- A concrete instantiation of the transform library: the time-stretch
resamples to the documented output length `round-down(len / rate)`, the
pitch-shift and the low-pass leave the buffer unchanged. -/
def defaultTransformPack : TransformPack ℚ where
  timeStretch xs r := resizeAudio xs ((Int.floor ((xs.length : ℚ) / r)).toNat)
  pitchShift xs _ _ := xs
  lowpass xs _ _ := xs
  stretch_len := by
    intro xs r hr
    rw [resizeAudio_length]
    exact floor_toNat_div_close xs.length r hr
  shift_len := by intro xs sr st; rfl
  lowpass_len := by intro xs c sr; rfl

/-- A concrete instantiation of the mathematical functions satisfying the
contracts of `MathPack` (used to witness theorems quantified over packs). -/
def defaultMathPack : MathPack where
  sinFn _ := 0
  expFn x := if x ≤ 0 then 1 / (1 - x) else 1 + x
  sqrtFn x := x
  pow2Fn _ := 1
  tanhFn x := x / (1 + |x|)
  piQ := 3
  fftFn xs := xs.map fun x => (x, 0)
  ifftReFn xs := xs.map Prod.fst
  sin_le := by intro x; norm_num
  tanh_lt := by
    intro x
    have h : (0 : ℚ) < 1 + |x| := by positivity
    rw [abs_div, abs_of_pos h, div_lt_one h]
    linarith
  fft_len := by intro xs; simp
  ifft_len := by intro xs; simp

def defaultPack : Pack := ⟨defaultTransformPack, defaultMathPack⟩

/-- C1.  Determinism of `AudioGenerationEngine.generate`: the call begins
with `np.random.seed(params.randomness_seed); random.seed(params.randomness_seed)`,
so the whole render depends only on the parameters (through the seeded
stream `seedStream p.seed`) and not on the pre-existing generator state:
two executions with identical valid parameters — in particular the same
seed — produce identical output, both the sample sequence and the returned
sample rate. -/
theorem generate_deterministic (pack : Pack) (cache : Cache)
    (seedStream : ℤ → RandStream) (g₁ g₂ : RandStream × ℕ)
    (p : AudioParameters) (_hv : p.Valid) :
    generate pack cache seedStream g₁ p = generate pack cache seedStream g₂ p := rfl

/-- A valid parameter set used by several concrete runs: 1 s, dry
(`wetness = 3`), neutral pitch, no reverb, sample rate 20 Hz. -/
def pDry : AudioParameters := ⟨1, 3, 5, .classic, 0, 0, 42, 20⟩

/-- A one-asset cache: a single 20-sample constant recording at rate 20. -/
def oneCache : Cache := fun _ => [(List.replicate 20 1, 20)]

theorem generate_deterministic_witness :
    pDry.Valid ∧
    generate defaultPack oneCache (fun _ _ => 0) ((fun _ => 5), 17) pDry =
      generate defaultPack oneCache (fun _ _ => 0) ((fun _ => 9), 3) pDry :=
  ⟨of_decide_eq_true (by with_unfolding_all rfl),
    generate_deterministic defaultPack oneCache (fun _ _ => 0)
      ((fun _ => 5), 17) ((fun _ => 9), 3) pDry
      (of_decide_eq_true (by with_unfolding_all rfl))⟩

theorem randintD_ok_bounds {s : RandStream} {pos : ℕ} {a b : ℤ}
    {r : ℤ × ℕ} (h : randintD s pos a b = .ok r) :
    a ≤ r.1 ∧ r.1 ≤ b ∧ r.2 = pos + 1 := by
  unfold randintD at h
  split at h
  · exact absurd h (by simp)
  · rename_i hab
    have hle : a ≤ b := not_lt.mp hab
    injection h with h'
    subst h'
    have hm : ((Int.floor (s pos)).natAbs % (b - a + 1).toNat : ℕ) < (b - a + 1).toNat :=
      Nat.mod_lt _ (by omega)
    refine ⟨by omega, ?_, rfl⟩
    simp only
    omega

theorem clamp01_mem (q : ℚ) : 0 ≤ clamp01 q ∧ clamp01 q ≤ 1 := by
  unfold clamp01
  exact ⟨le_max_left 0 _, max_le (by norm_num) (min_le_left 1 q)⟩

theorem uniformD_mem (s : RandStream) (pos : ℕ) (a b : ℚ) (hab : a ≤ b) :
    a ≤ (uniformD s pos a b).1 ∧ (uniformD s pos a b).1 ≤ b := by
  unfold uniformD
  obtain ⟨h0, h1⟩ := clamp01_mem (s pos)
  constructor
  · simp only
    nlinarith
  · simp only
    nlinarith

theorem drawBurst_ok_spec {s : RandStream} {pos len : ℕ} {r : Burst × ℕ}
    (h : drawBurst s pos len = .ok r) :
    (r.1.bpos : ℤ) ≤ (len : ℤ) - 1000 ∧ 100 ≤ r.1.blen ∧ r.1.blen ≤ 500 ∧
      300 ≤ r.1.bfreq ∧ r.1.bfreq ≤ 1000 := by
  unfold drawBurst at h
  split at h
  · exact absurd h (by simp)
  · rename_i pr h1
    split at h
    · exact absurd h (by simp)
    · rename_i lr h2
      obtain ⟨hp0, hp1, -⟩ := randintD_ok_bounds h1
      obtain ⟨hl0, hl1, -⟩ := randintD_ok_bounds h2
      obtain ⟨hf0, hf1⟩ := uniformD_mem s lr.2 300 1000 (by norm_num)
      injection h with h'
      subst h'
      refine ⟨by simp only; omega, by simp only; omega, by simp only; omega, hf0, hf1⟩

theorem drawBursts_ok_spec {s : RandStream} {len : ℕ} :
    ∀ {n pos : ℕ} {r : List Burst × ℕ}, drawBursts s len n pos = .ok r →
    r.1.length = n ∧ ∀ d ∈ r.1,
      (d.bpos : ℤ) ≤ (len : ℤ) - 1000 ∧ 100 ≤ d.blen ∧ d.blen ≤ 500 ∧
        300 ≤ d.bfreq ∧ d.bfreq ≤ 1000 := by
  intro n
  induction n with
  | zero =>
    intro pos r h
    unfold drawBursts at h
    injection h with h'
    subst h'
    exact ⟨rfl, by intro d hd; exact absurd hd (by simp)⟩
  | succ m ih =>
    intro pos r h
    unfold drawBursts at h
    split at h
    · exact absurd h (by simp)
    · rename_i br h1
      split at h
      · exact absurd h (by simp)
      · rename_i rest h2
        injection h with h'
        subst h'
        obtain ⟨hlen, hall⟩ := ih h2
        refine ⟨by simp [hlen], ?_⟩
        intro d hd
        rcases List.mem_cons.mp hd with hd1 | hd2
        · subst hd1; exact drawBurst_ok_spec h1
        · exact hall d hd2

theorem drawBurst_total (s : RandStream) (pos len : ℕ) (hlen : 1000 ≤ len) :
    ∃ r, drawBurst s pos len = .ok r := by
  unfold drawBurst randintD
  rw [if_neg (by omega)]
  simp only [show ¬((500 : ℤ) < 100) by omega, if_false]
  exact ⟨_, rfl⟩

theorem drawBursts_total (s : RandStream) (len : ℕ) (hlen : 1000 ≤ len) :
    ∀ n pos, ∃ r, drawBursts s len n pos = .ok r := by
  intro n
  induction n with
  | zero => intro pos; exact ⟨([], pos), rfl⟩
  | succ m ih =>
    intro pos
    obtain ⟨br, hbr⟩ := drawBurst_total s pos len hlen
    obtain ⟨rest, hrest⟩ := ih br.2
    refine ⟨(br.1 :: rest.1, rest.2), ?_⟩
    unfold drawBursts
    simp only [hbr, hrest]

theorem drawBursts_short_err (s : RandStream) {len : ℕ} (hlen : len < 1000) :
    ∀ {n : ℕ}, 0 < n → ∀ pos, drawBursts s len n pos = .error .valueError := by
  intro n hn pos
  match n, hn with
  | m + 1, _ =>
    unfold drawBursts drawBurst randintD
    rw [if_pos (by omega)]

/-- C10.  With `wetness > 5` the bubbling generator draws each burst's
start position from `random.randint(0, lengthInSamples - 1000)`, so it is
total exactly when the buffer holds at least 1000 samples: shorter buffers
make the very first draw fail with a `ValueError` (an empty `randint`
range), while for `lengthInSamples ≥ 1000` all `5 * wetness` draws succeed,
every burst starts no later than `lengthInSamples - 1000`, is at most 500
samples long, hence ends at least 500 samples before the buffer end and is
never truncated (`min (pos + len) length = pos + len`). -/
theorem generateBubbling_total_iff (mp : MathPack) (s : RandStream)
    (pos len sr w : ℕ) (hw : 5 < w) :
    (len < 1000 → generateBubbling mp s pos len sr w = .error .valueError) ∧
    (1000 ≤ len → ∃ ds pos',
      drawBursts s len (w * 5) pos = .ok (ds, pos') ∧
      generateBubbling mp s pos len sr w = .ok (renderBursts mp len sr ds, pos') ∧
      ds.length = w * 5 ∧
      ∀ d ∈ ds, d.bpos ≤ len - 1000 ∧ d.blen ≤ 500 ∧
        d.bpos + d.blen + 500 ≤ len ∧ min (d.bpos + d.blen) len = d.bpos + d.blen) := by
  constructor
  · intro hlen
    unfold generateBubbling
    rw [drawBursts_short_err s hlen (by omega) pos]
  · intro hlen
    obtain ⟨r, hr⟩ := drawBursts_total s len hlen (w * 5) pos
    obtain ⟨hlen', hall⟩ := drawBursts_ok_spec hr
    refine ⟨r.1, r.2, hr, ?_, hlen', ?_⟩
    · unfold generateBubbling
      rw [hr]
    · intro d hd
      obtain ⟨h1, h2, h3, -, -⟩ := hall d hd
      refine ⟨by omega, by omega, by omega, by omega⟩

theorem generateBubbling_total_iff_witness :
    5 < 7 ∧
    ((1200 : ℕ) < 1000 →
      generateBubbling defaultMathPack (fun _ => 0) 0 1200 100 7 = .error .valueError) ∧
    (1000 ≤ 1200 → ∃ ds pos',
      drawBursts (fun _ => 0) 1200 (7 * 5) 0 = .ok (ds, pos') ∧
      generateBubbling defaultMathPack (fun _ => 0) 0 1200 100 7 =
        .ok (renderBursts defaultMathPack 1200 100 ds, pos') ∧
      ds.length = 7 * 5 ∧
      ∀ d ∈ ds, d.bpos ≤ 1200 - 1000 ∧ d.blen ≤ 500 ∧
        d.bpos + d.blen + 500 ≤ 1200 ∧
        min (d.bpos + d.blen) 1200 = d.bpos + d.blen) :=
  ⟨by omega, generateBubbling_total_iff defaultMathPack (fun _ => 0) 0 1200 100 7 (by omega)⟩

theorem synthLayers_inversion {mp : MathPack} {p : AudioParameters}
    {s : RandStream} {pos : ℕ} {L : Layers} {pos' : ℕ}
    (hok : generateSynthesisLayers mp p s pos = .ok (L, pos')) :
    L.noise = (generateNoise mp s pos (durationSamples p) p.sampleRate
      (if 5 < p.wetness then .pink else .white)).1 ∧
    L.rumble = (generateRumble mp s
      (generateNoise mp s pos (durationSamples p) p.sampleRate
        (if 5 < p.wetness then .pink else .white)).2
      (durationSamples p) p.sampleRate (pitchToFreq mp p.pitch)).1 ∧
    ((5 < p.wetness ∧ ∃ br, generateBubbling mp s
        (generateRumble mp s
          (generateNoise mp s pos (durationSamples p) p.sampleRate
            (if 5 < p.wetness then .pink else .white)).2
          (durationSamples p) p.sampleRate (pitchToFreq mp p.pitch)).2
        (durationSamples p) p.sampleRate p.wetness = .ok br ∧
        L.bubbling = some br.1 ∧ pos' = br.2) ∨
      (p.wetness ≤ 5 ∧ L.bubbling = none ∧ pos' =
        (generateRumble mp s
          (generateNoise mp s pos (durationSamples p) p.sampleRate
            (if 5 < p.wetness then .pink else .white)).2
          (durationSamples p) p.sampleRate (pitchToFreq mp p.pitch)).2)) := by
  simp only [generateSynthesisLayers] at hok
  by_cases hw : 5 < p.wetness
  · rw [if_pos hw] at hok
    split at hok
    · exact absurd hok (by simp)
    · rename_i br hb
      injection hok with h'
      injection h' with h1 h2
      subst h2
      subst h1
      exact ⟨rfl, rfl, Or.inl ⟨hw, br, hb, rfl, rfl⟩⟩
  · rw [if_neg hw] at hok
    injection hok with h'
    injection h' with h1 h2
    subst h2
    subst h1
    exact ⟨rfl, rfl, Or.inr ⟨by omega, rfl, rfl⟩⟩

/-- C4.  For every valid parameter set whose synthesis succeeds, the layer
set contains `bubbling` exactly when `wetness > 5` (so `wetness = 0` never
includes it and `wetness = 10` always does), and a present bubbling layer
is `renderBursts` of exactly `5 * wetness` drawn bursts, each with carrier
frequency in `[300, 1000]` Hz and length in `[100, 500]` samples; each
burst's waveform carries the `exp(-t * 50)` decay envelope by the
definition of `bubbleWave`. -/
theorem synthesisLayers_bubbling (mp : MathPack) (p : AudioParameters)
    (s : RandStream) (pos : ℕ) (L : Layers) (pos' : ℕ) (_hv : p.Valid)
    (hok : generateSynthesisLayers mp p s pos = .ok (L, pos')) :
    (L.bubbling.isSome ↔ 5 < p.wetness) ∧
    ∀ bl, L.bubbling = some bl → ∃ ds : List Burst,
      bl = renderBursts mp (durationSamples p) p.sampleRate ds ∧
      ds.length = 5 * p.wetness ∧
      ∀ d ∈ ds, 300 ≤ d.bfreq ∧ d.bfreq ≤ 1000 ∧ 100 ≤ d.blen ∧ d.blen ≤ 500 := by
  obtain ⟨-, -, hcase⟩ := synthLayers_inversion hok
  rcases hcase with ⟨hw, br, hb, hsome, -⟩ | ⟨hw, hnone, -⟩
  · refine ⟨by simp [hsome, hw], ?_⟩
    intro bl hbl
    rw [hsome] at hbl
    injection hbl with hbl'
    subst hbl'
    unfold generateBubbling at hb
    split at hb
    · exact absurd hb (by simp)
    · rename_i dr hd
      injection hb with hb'
      obtain ⟨hlen, hall⟩ := drawBursts_ok_spec hd
      refine ⟨dr.1, by rw [← hb'], by rw [hlen, Nat.mul_comm], ?_⟩
      intro d hdd
      obtain ⟨-, h2, h3, h4, h5⟩ := hall d hdd
      exact ⟨h4, h5, h2, h3⟩
  · refine ⟨by simp [hnone]; omega, ?_⟩
    intro bl hbl
    rw [hnone] at hbl
    exact absurd hbl (by simp)

/-- The synthesis layers of a concrete dry render (`pDry`, all-zero
stream), used by concrete instantiations. -/
def synDry : Layers × ℕ :=
  (generateSynthesisLayers defaultMathPack pDry (fun _ => 0) 0).toOption.getD default

set_option maxRecDepth 100000 in
theorem synthesisLayers_bubbling_witness :
    synDry.1.bubbling.isSome ↔ 5 < pDry.wetness :=
  (synthesisLayers_bubbling defaultMathPack pDry (fun _ => 0) 0 synDry.1 synDry.2
    (of_decide_eq_true (by with_unfolding_all rfl))
    (of_decide_eq_true (by with_unfolding_all rfl))).1

set_option maxRecDepth 100000 in
/-- C6 counterexample.  The white-noise layer is `np.random.normal(0, 0.1,
length)` with no clipping: a normal draw of `100` yields the sample `10`,
so the noise layer is not bounded by any ceiling near `0.1` of full scale
(here the peak exceeds `1`, ten times the claimed ceiling). -/
theorem noise_layer_exceeds_ceiling :
    (generateSynthesisLayers defaultMathPack pDry (fun _ => 100) 0).map
      (fun r => decide (1 < peakAbs r.1.noise)) = .ok true := by
  with_unfolding_all rfl

/-- C6 amended.  The noise layer is the white-noise generator's output
exactly when `wetness ≤ 5` and the pink-noise generator's output (the
`1/sqrt(|f|+1)` spectral shaping of a white spectrum, inverse-transformed
and scaled by `0.1`) when `wetness > 5`; white noise is the raw normal
draws scaled by `0.1`, with no per-sample bound. -/
theorem noise_layer_dispatch (mp : MathPack) (p : AudioParameters)
    (s : RandStream) (pos : ℕ) (L : Layers) (pos' : ℕ) (_hv : p.Valid)
    (hok : generateSynthesisLayers mp p s pos = .ok (L, pos')) :
    (p.wetness ≤ 5 → L.noise = (whiteNoise s pos (durationSamples p)).1) ∧
    (5 < p.wetness → L.noise = (pinkNoise mp s pos (durationSamples p) p.sampleRate).1) ∧
    ∀ i, i < durationSamples p →
      (whiteNoise s pos (durationSamples p)).1.getD i 0 = (1/10) * s (pos + i) := by
  obtain ⟨hn, -, -⟩ := synthLayers_inversion hok
  refine ⟨?_, ?_, ?_⟩
  · intro hw
    rw [hn, if_neg (by omega)]
    rfl
  · intro hw
    rw [hn, if_pos hw]
    rfl
  · intro i hi
    unfold whiteNoise normalsD
    simp only
    rw [List.getD_eq_getElem?_getD, List.getElem?_map, List.getElem?_range hi]
    rfl

set_option maxRecDepth 100000 in
theorem noise_layer_dispatch_witness :
    synDry.1.noise = (whiteNoise (fun _ => 0) 0 (durationSamples pDry)).1 :=
  (noise_layer_dispatch defaultMathPack pDry (fun _ => 0) 0 synDry.1 synDry.2
    (of_decide_eq_true (by with_unfolding_all rfl))
    (of_decide_eq_true (by with_unfolding_all rfl))).1
    (of_decide_eq_true (by with_unfolding_all rfl))

theorem getD_cons_eraseIdx_perm {α : Type} [Inhabited α] :
    ∀ (l : List α) (i : ℕ), i < l.length →
      List.Perm (l.getD i default :: l.eraseIdx i) l := by
  intro l
  induction l with
  | nil => intro i hi; simp at hi
  | cons a t ih =>
    intro i hi
    cases i with
    | zero => exact List.Perm.refl _
    | succ j =>
      have hj : j < t.length := by simpa using hi
      exact (List.Perm.swap a (t.getD j default) (t.eraseIdx j)).trans
        (List.Perm.cons a (ih j hj))

theorem sampleWithoutReplacement_ok {s : RandStream} :
    ∀ (k pos : ℕ) (l : List Asset) (r : List Asset × ℕ),
      sampleWithoutReplacement s pos l k = .ok r →
      r.1.length = k ∧ List.Subperm r.1 l := by
  intro k
  induction k with
  | zero =>
    intro pos l r h
    unfold sampleWithoutReplacement at h
    injection h with h'
    subst h'
    exact ⟨rfl, List.nil_subperm⟩
  | succ m ih =>
    intro pos l r h
    unfold sampleWithoutReplacement at h
    split at h
    · exact absurd h (by simp)
    · rename_i hne
      split at h
      · exact absurd h (by simp)
      · rename_i ir hir
        split at h
        · exact absurd h (by simp)
        · rename_i rest hrest
          injection h with h'
          subst h'
          obtain ⟨hl, hsub⟩ := ih _ _ _ hrest
          obtain ⟨h0, h1, -⟩ := randintD_ok_bounds hir
          have hidx : ir.1.toNat < l.length := by omega
          refine ⟨by simp [hl], ?_⟩
          exact ((List.subperm_cons (l.getD ir.1.toNat default)).mpr hsub).trans
            (getD_cons_eraseIdx_perm l ir.1.toNat hidx).subperm

/-- C7 amended.  Sample selection draws
`num = randint(1, min(3, len(samples)))` and then `random.sample(samples,
num)`: whenever it succeeds it returns between 1 and 3 assets, never more
than are registered under the type, without replacement (the selection is
a sub-permutation of the registered asset list); when the configured
category holds zero assets it fails, but with the `ValueError` of the
empty `randint(1, 0)` range — the code has no `MissingAssetError`.
(Uniformity of the distribution is a property of the real PRNG and is not
expressible over the stream model.) -/
theorem selectSamples_spec (cache : Cache) (t : FartType) (s : RandStream)
    (pos : ℕ) :
    ((cache t).length = 0 → selectSamples cache t s pos = .error .valueError) ∧
    (∀ r, selectSamples cache t s pos = .ok r →
      1 ≤ r.1.length ∧ r.1.length ≤ 3 ∧ r.1.length ≤ (cache t).length ∧
        List.Subperm r.1 (cache t)) := by
  constructor
  · intro h0
    simp only [selectSamples, randintD, h0]
    norm_num
  · intro r hr
    simp only [selectSamples] at hr
    split at hr
    · exact absurd hr (by simp)
    · rename_i nr hnr
      obtain ⟨h1, h2, -⟩ := randintD_ok_bounds hnr
      obtain ⟨hlen, hsub⟩ := sampleWithoutReplacement_ok _ _ _ _ hr
      refine ⟨by omega, by omega, by omega, hsub⟩

/-- C7 counterexample.  On a category with zero registered assets the
selection fails with the generic `ValueError` raised by
`random.randint(1, 0)`, not with the `MissingAssetError` the claim
names. -/
theorem selectSamples_empty_not_missingAsset :
    selectSamples (fun _ => []) FartType.wet (fun _ => 0) 0 = .error .valueError ∧
      EngErr.valueError ≠ EngErr.missingAssetError :=
  ⟨by with_unfolding_all rfl, by simp⟩

/-- A two-asset cache for concrete selection runs. -/
def twoCache : Cache := fun _ => [([1], 1), ([2], 1)]

/-- The concrete selection result on `twoCache`. -/
def selRes : List Asset × ℕ :=
  (selectSamples twoCache .classic (fun _ => 0) 0).toOption.getD default

theorem selectSamples_spec_witness :
    1 ≤ selRes.1.length ∧ selRes.1.length ≤ 3 ∧
      selRes.1.length ≤ (twoCache .classic).length ∧
      List.Subperm selRes.1 (twoCache .classic) :=
  (selectSamples_spec twoCache .classic (fun _ => 0) 0).2 selRes
    (of_decide_eq_true (by with_unfolding_all rfl))

theorem getD_range_map (f : ℕ → ℚ) (n i : ℕ) (h : i < n) :
    ((List.range n).map f).getD i 0 = f i := by
  rw [List.getD_eq_getElem?_getD, List.getElem?_map, List.getElem?_range h]
  rfl

theorem resizeAudio_getD_lt (a : List ℚ) (n i : ℕ) (hia : i < a.length)
    (hin : i < n) : (resizeAudio a n).getD i 0 = a.getD i 0 := by
  unfold resizeAudio
  split
  · rfl
  · split
    · exact List.getD_append a _ 0 i hia
    · rw [List.getD_eq_getElem?_getD, List.getElem?_take, if_pos hin,
        ← List.getD_eq_getElem?_getD]

theorem resizeAudio_getD_pad (a : List ℚ) (n i : ℕ) (hia : a.length ≤ i)
    (hin : i < n) : (resizeAudio a n).getD i 0 = 0 := by
  unfold resizeAudio
  split
  · rename_i h
    omega
  · split
    · rw [List.getD_append_right a _ 0 i hia, List.getD_eq_getElem?_getD,
        List.getElem?_replicate]
      split <;> rfl
    · omega

/-- C5.  The mixer resizes every procedural layer to the sample length of
the transformed base (`resizeAudio` leaves positions below both lengths
unchanged, zero-fills tail positions beyond the layer's own length, and
truncates longer buffers), and each output sample is
`0.60*base + 0.15*noise + 0.20*rumble` when there is no bubbling layer and
`(0.60*base + 0.15*noise + 0.20*rumble + 0.15*bubbling) * 0.8` when there
is one. -/
theorem mixLayers_spec (base : List ℚ) (L : Layers) :
    (mixLayers base L).length = base.length ∧
    (∀ (a : List ℚ) (n : ℕ), (resizeAudio a n).length = n ∧
      (∀ i, i < a.length → i < n → (resizeAudio a n).getD i 0 = a.getD i 0) ∧
      (∀ i, a.length ≤ i → i < n → (resizeAudio a n).getD i 0 = 0)) ∧
    (∀ i, i < base.length → (mixLayers base L).getD i 0 =
      match L.bubbling with
      | none => base.getD i 0 * (6/10)
          + (resizeAudio L.noise base.length).getD i 0 * (15/100)
          + (resizeAudio L.rumble base.length).getD i 0 * (2/10)
      | some b => (base.getD i 0 * (6/10)
          + (resizeAudio L.noise base.length).getD i 0 * (15/100)
          + (resizeAudio L.rumble base.length).getD i 0 * (2/10)
          + (resizeAudio b base.length).getD i 0 * (15/100)) * (8/10)) := by
  refine ⟨?_, ?_, ?_⟩
  · cases hb : L.bubbling <;> simp [mixLayers, hb]
  · intro a n
    exact ⟨resizeAudio_length a n,
      fun i h1 h2 => resizeAudio_getD_lt a n i h1 h2,
      fun i h1 h2 => resizeAudio_getD_pad a n i h1 h2⟩
  · intro i hi
    cases hb : L.bubbling with
    | none =>
      simp only [mixLayers, hb]
      rw [getD_range_map _ _ _ hi]
    | some b =>
      simp only [mixLayers, hb]
      rw [getD_range_map _ _ _ hi, getD_range_map _ _ _ hi]

theorem mixLayers_spec_witness :
    (mixLayers [1, 2] ⟨[3], [4, 5, 6], some [7]⟩).length = 2 ∧
    (resizeAudio [3] 2).getD 1 0 = 0 ∧
    (mixLayers [1, 2] ⟨[3], [4, 5, 6], some [7]⟩).getD 0 0 =
      (([1, 2] : List ℚ).getD 0 0 * (6/10)
        + (resizeAudio [3] 2).getD 0 0 * (15/100)
        + (resizeAudio [4, 5, 6] 2).getD 0 0 * (2/10)
        + (resizeAudio [7] 2).getD 0 0 * (15/100)) * (8/10) :=
  ⟨(mixLayers_spec [1, 2] ⟨[3], [4, 5, 6], some [7]⟩).1,
    ((mixLayers_spec [1, 2] ⟨[3], [4, 5, 6], some [7]⟩).2.1 [3] 2).2.2 1
      (by norm_num) (by norm_num),
    (mixLayers_spec [1, 2] ⟨[3], [4, 5, 6], some [7]⟩).2.2 0 (by norm_num)⟩

theorem mem_softLimiter_lt (mp : MathPack) (a : List ℚ) (x : ℚ)
    (hx : x ∈ softLimiter mp a) : |x| < 9/10 := by
  unfold softLimiter at hx
  obtain ⟨y, -, hy⟩ := List.mem_map.mp hx
  subst hy
  have h := mp.tanh_lt (y * (6/5))
  rw [abs_mul, show |(9/10 : ℚ)| = 9/10 by norm_num]
  nlinarith [abs_nonneg (mp.tanhFn (y * (6/5)))]

theorem linspaceQ_unit_mem {a b : ℚ} (ha0 : 0 ≤ a) (ha1 : a ≤ 1)
    (hb0 : 0 ≤ b) (hb1 : b ≤ 1) (n : ℕ) :
    ∀ f ∈ linspaceQ a b n, 0 ≤ f ∧ f ≤ 1 := by
  intro f hf
  unfold linspaceQ at hf
  split at hf
  · have := List.eq_of_mem_replicate hf
    subst this
    exact ⟨ha0, ha1⟩
  · rename_i hn
    simp only [List.mem_map, List.mem_range] at hf
    obtain ⟨i, hi', rfl⟩ := hf
    have hd : (0 : ℚ) < (n : ℚ) - 1 := by
      have : (2 : ℚ) ≤ (n : ℚ) := by exact_mod_cast (by omega : 2 ≤ n)
      linarith
    rw [mul_div_assoc]
    have ht0 : (0 : ℚ) ≤ (i : ℚ) / ((n : ℚ) - 1) := div_nonneg (by positivity) hd.le
    have ht1 : (i : ℚ) / ((n : ℚ) - 1) ≤ 1 := by
      rw [div_le_one hd]
      have : (i : ℚ) + 1 ≤ (n : ℚ) := by exact_mod_cast hi'
      linarith
    constructor
    · nlinarith [mul_nonneg hb0 ht0, mul_nonneg ha0 (by linarith : (0:ℚ) ≤ 1 - (i:ℚ)/((n:ℚ)-1))]
    · nlinarith [mul_nonneg (by linarith : (0:ℚ) ≤ 1 - b) ht0,
        mul_nonneg (by linarith : (0:ℚ) ≤ 1 - a) (by linarith : (0:ℚ) ≤ 1 - (i:ℚ)/((n:ℚ)-1))]

theorem fadeRamp_bound {l ramp : List ℚ} {c : ℚ}
    (hl : ∀ x ∈ l, |x| < c) (hr : ∀ f ∈ ramp, 0 ≤ f ∧ f ≤ 1) :
    ∀ x ∈ (l.zip ramp).map (fun z => z.1 * z.2), |x| < c := by
  intro x hx
  obtain ⟨z, hz, rfl⟩ := List.mem_map.mp hx
  obtain ⟨hz1, hz2⟩ := List.of_mem_zip hz
  obtain ⟨hf0, hf1⟩ := hr z.2 hz2
  have hy := hl z.1 hz1
  rw [abs_mul, abs_of_nonneg hf0]
  nlinarith [abs_nonneg z.1]

theorem applyFade_bound {a : List ℚ} {fs : ℕ} {out : List ℚ} {c : ℚ}
    (h : ∀ x ∈ a, |x| < c) (hf : applyFade a fs = some out) :
    ∀ x ∈ out, |x| < c := by
  unfold applyFade at hf
  split_ifs at hf with h1 h2 h3
  · injection hf with hf'
    subst hf'
    exact h
  · have hb : ∀ x ∈ ((a.take fs).zip (linspaceQ 0 1 fs)).map (fun z => z.1 * z.2)
        ++ a.drop fs, |x| < c := by
      intro x hx
      rcases List.mem_append.mp hx with hx1 | hx2
      · exact fadeRamp_bound (fun y hy => h y (List.mem_of_mem_take hy))
          (linspaceQ_unit_mem (by norm_num) (by norm_num) (by norm_num) (by norm_num) fs)
          x hx1
      · exact h x (List.mem_of_mem_drop hx2)
    injection hf with hf'
    subst hf'
    intro x hx
    rcases List.mem_append.mp hx with hx1 | hx2
    · exact hb x (List.mem_of_mem_take hx1)
    · exact fadeRamp_bound (fun y hy => hb y (List.mem_of_mem_drop hy))
        (linspaceQ_unit_mem (by norm_num) (by norm_num) (by norm_num) (by norm_num) fs)
        x hx2

theorem peakAbs_lt_of_forall {a : List ℚ} {c : ℚ} (hc : 0 < c)
    (h : ∀ x ∈ a, |x| < c) : peakAbs a < c := by
  induction a with
  | nil => simpa [peakAbs] using hc
  | cons x t ih =>
    have hx := h x (by simp)
    have ht := ih fun y hy => h y (by simp [hy])
    simp only [peakAbs, List.foldr_cons]
    exact max_lt hx ht

theorem postProcess_peak_lt {mp : MathPack} {p : AudioParameters}
    {s : RandStream} {pos : ℕ} {buf : List ℚ} {fr : List ℚ × ℕ}
    (hr : p.reverbAmount = 0) (hok : postProcess mp p s pos buf = .ok fr) :
    peakAbs fr.1 < 9/10 := by
  simp only [postProcess] at hok
  split at hok
  · exact absurd hok (by simp)
  · rename_i a3 hfade
    rw [hr, if_neg (lt_irrefl 0)] at hok
    injection hok with h'
    subst h'
    exact peakAbs_lt_of_forall (by norm_num)
      (applyFade_bound (fun x hx => mem_softLimiter_lt mp _ x hx) hfade)

/-- C9.  The soft limiter maps every sample `x` to `tanh(x * 1.2) * 0.9`,
whose absolute value is strictly below `0.9`; consequently, since the fade
only multiplies samples by ramp factors in `[0, 1]` and the reverb branch
is skipped when `reverbAmount = 0`, the final output of `_post_process`
then has absolute peak strictly below `0.9`, regardless of what the
normalization step produced. -/
theorem softLimiter_bound_and_dry_peak (mp : MathPack) (buf : List ℚ)
    (p : AudioParameters) (s : RandStream) (pos : ℕ) (fr : List ℚ × ℕ) :
    (∀ x ∈ softLimiter mp buf, |x| < 9/10) ∧
    (p.reverbAmount = 0 → postProcess mp p s pos buf = .ok fr →
      peakAbs fr.1 < 9/10) :=
  ⟨fun x hx => mem_softLimiter_lt mp buf x hx,
    fun hr hok => postProcess_peak_lt hr hok⟩

/-- The concrete post-processing run used by the C9 witness. -/
def ppRes : List ℚ × ℕ :=
  (postProcess defaultMathPack pDry (fun _ => 0) 0 [1, 1]).toOption.getD default

set_option maxRecDepth 100000 in
theorem softLimiter_bound_and_dry_peak_witness :
    |defaultMathPack.tanhFn (1 * (6/5)) * (9/10)| < 9/10 ∧
      peakAbs ppRes.1 < 9/10 :=
  ⟨(softLimiter_bound_and_dry_peak defaultMathPack [1] pDry (fun _ => 0) 0 ppRes).1
      (defaultMathPack.tanhFn (1 * (6/5)) * (9/10))
      (of_decide_eq_true (by with_unfolding_all rfl)),
    (softLimiter_bound_and_dry_peak defaultMathPack [1, 1] pDry (fun _ => 0) 0 ppRes).2
      rfl (of_decide_eq_true (by with_unfolding_all rfl))⟩

/-- C3 amended.  When `reverbAmount = 0` the final waveform returned by
`generate` has absolute peak at most the target peak `0.95` (in fact
strictly below the limiter ceiling `0.9`); the restriction to
`reverbAmount = 0` is forced because the reverb convolution runs after the
limiter with no re-normalization and can push the peak arbitrarily far
above the bound (see the counterexample). -/
theorem generate_peak_bound_dry (pack : Pack) (cache : Cache)
    (seedStream : ℤ → RandStream) (g : RandStream × ℕ) (p : AudioParameters)
    (out : List ℚ × ℕ) (_hv : p.Valid) (hr : p.reverbAmount = 0)
    (hok : generate pack cache seedStream g p = .ok out) :
    peakAbs out.1 ≤ 19/20 := by
  simp only [generate] at hok
  split at hok
  · exact absurd hok (by simp)
  · rename_i br hbase
    split at hok
    · exact absurd hok (by simp)
    · rename_i lr hsyn
      split at hok
      · exact absurd hok (by simp)
      · rename_i fr hpp
        injection hok with h'
        subst h'
        have := postProcess_peak_lt hr hpp
        have h910 : (9/10 : ℚ) ≤ 19/20 := by norm_num
        exact le_trans (le_of_lt this) h910

/-- The concrete dry full render used by the C3 witness. -/
def genDryRes : List ℚ × ℕ :=
  (generate defaultPack oneCache (fun _ _ => 0) ((fun _ => 0), 0) pDry).toOption.getD default

set_option maxRecDepth 400000 in
theorem generate_peak_bound_dry_witness : peakAbs genDryRes.1 ≤ 19/20 :=
  generate_peak_bound_dry defaultPack oneCache (fun _ _ => 0) ((fun _ => 0), 0)
    pDry genDryRes (of_decide_eq_true (by with_unfolding_all rfl)) rfl
    (of_decide_eq_true (by with_unfolding_all rfl))

/-- A valid parameter set with full reverb (`reverbAmount = 1`). -/
def pRev : AudioParameters := ⟨1, 3, 5, .classic, 1, 0, 7, 20⟩

set_option maxRecDepth 400000 in
/-- C3 counterexample.  `_apply_reverb` runs after normalization and the
limiter with no re-normalization: with `reverbAmount = 1` (a valid value)
and a large impulse-response draw, the returned waveform's absolute peak
exceeds `0.95 + 1`, far beyond the target peak plus any limiter overshoot
tolerance. -/
theorem generate_reverb_exceeds_peak :
    (generate defaultPack oneCache (fun _ _ => 1000000) ((fun _ => 0), 0) pRev).map
      (fun r => decide (19/20 + 1 < peakAbs r.1)) = .ok true := by
  with_unfolding_all rfl

/-- C2 code-bug theorem.  `_apply_transformations` computes
`stretch_factor = params.duration / current_duration` and passes it as the
`rate` of `librosa.effects.time_stretch`, whose documented behaviour is to
speed the audio up by `rate` (output length `len / rate` up to rounding).
On a 1-second base sample (44100 samples at rate 44100) with target
`duration = 2` the stretch factor is `2`, so the transformed buffer lasts
about `0.5` s: its duration misses the 2-second target by more than one
second, far outside the claimed tolerance of 2% (`0.04` s) or one sample
period (`1/44100` s).  The correct rate would have been
`current_duration / duration`. -/
theorem transform_duration_mismatch (tp : TransformPack ℚ) (xs : List ℚ)
    (p : AudioParameters) (hlen : xs.length = 44100)
    (hsr : p.sampleRate = 44100) (hd : p.duration = 2) (hw : p.wetness ≤ 5) :
    1 ≤ |((applyTransformations tp xs p).length : ℚ) / 44100 - 2| := by
  simp only [applyTransformations]
  rw [if_neg (by omega), tp.shift_len]
  have hrq : p.duration / ((xs.length : ℚ) / p.sampleRate) = 2 := by
    rw [hlen, hsr, hd]
    norm_num
  rw [hrq]
  have h := tp.stretch_len xs 2 (by norm_num)
  rw [hlen] at h
  rw [abs_le] at h
  obtain ⟨-, h2⟩ := h
  have hup : ((tp.timeStretch xs 2).length : ℚ) ≤ 22051 := by
    have : ((44100 : ℕ) : ℚ) / 2 = 22050 := by norm_num
    linarith [this ▸ h2]
  rw [abs_sub_comm, abs_of_nonneg (by linarith)]
  linarith

/-- The failing input for C2: target duration 2 s at sample rate 44100. -/
def pC2 : AudioParameters := ⟨2, 3, 5, .classic, 0, 0, 1, 44100⟩

theorem transform_duration_mismatch_witness :
    (List.replicate 44100 (1 : ℚ)).length = 44100 ∧ pC2.sampleRate = 44100 ∧
      pC2.duration = 2 ∧ pC2.wetness ≤ 5 ∧
      1 ≤ |((applyTransformations defaultTransformPack
        (List.replicate 44100 (1 : ℚ)) pC2).length : ℚ) / 44100 - 2| :=
  ⟨List.length_replicate 44100 1, rfl, rfl, by decide,
    transform_duration_mismatch defaultTransformPack (List.replicate 44100 (1 : ℚ))
      pC2 (List.length_replicate 44100 1) rfl rfl (by decide)⟩

/-- A transform pack over `Option ℚ`, where `none` stands for a non-finite
sample value (NaN/Inf): its time-stretch produces only non-finite values,
while still meeting the documented length contract. -/
def nanStretchPack : TransformPack (Option ℚ) where
  timeStretch xs r := List.replicate ((Int.floor ((xs.length : ℚ) / r)).toNat) none
  pitchShift xs _ _ := xs
  lowpass xs _ _ := xs
  stretch_len := by
    intro xs r hr
    rw [List.length_replicate]
    exact floor_toNat_div_close xs.length r hr
  shift_len := by intro _ _ _; rfl
  lowpass_len := by intro _ _ _; rfl

/-- Valid parameters for the C8 counterexample run. -/
def pC8 : AudioParameters := ⟨1, 3, 5, .classic, 0, 0, 1, 2⟩

/-- C8 counterexample.  When the stretch step produces non-finite values
(modelled by `none`), `_apply_transformations` returns the buffer of
non-finite samples unchanged: it contains no finiteness check and no
`TransformInstabilityError` path at all (its result type has no error
channel), contradicting the claim that the stage fails rather than
returning non-finite samples. -/
theorem transform_returns_nonfinite :
    applyTransformations nanStretchPack [some 1, some 1] pC8 = [none, none] := by
  with_unfolding_all rfl

/-- C8 amended.  `_apply_transformations` is the bare composition of the
stretch, shift and (for `wetness > 5`) low-pass library calls: whatever
values they produce — non-finite ones included — are returned unchanged,
with no finiteness check, no `TransformInstabilityError`, and no retry. -/
theorem transform_no_instability_check {α : Type} (tp : TransformPack α)
    (audio : List α) (p : AudioParameters) :
    (p.wetness ≤ 5 → applyTransformations tp audio p =
      tp.pitchShift
        (tp.timeStretch audio (p.duration / ((audio.length : ℚ) / p.sampleRate)))
        p.sampleRate (((p.pitch : ℤ) - 5) * 2)) ∧
    (5 < p.wetness → applyTransformations tp audio p =
      tp.lowpass
        (tp.pitchShift
          (tp.timeStretch audio (p.duration / ((audio.length : ℚ) / p.sampleRate)))
          p.sampleRate (((p.pitch : ℤ) - 5) * 2))
        (800 + ((10 : ℚ) - p.wetness) * 200) p.sampleRate) := by
  constructor
  · intro h
    simp only [applyTransformations]
    rw [if_neg (by omega)]
  · intro h
    simp only [applyTransformations]
    rw [if_pos h]

theorem transform_no_instability_check_witness :
    applyTransformations defaultTransformPack [(1 : ℚ)] pDry =
      defaultTransformPack.pitchShift
        (defaultTransformPack.timeStretch [(1 : ℚ)]
          (pDry.duration / ((([(1 : ℚ)]).length : ℚ) / pDry.sampleRate)))
        pDry.sampleRate (((pDry.pitch : ℤ) - 5) * 2) :=
  (transform_no_instability_check defaultTransformPack [(1 : ℚ)] pDry).1 (by decide)

end FartGen
